import Mathlib

/-
Shallow embedding of the cFtpFs adaptation layer (listing parser, directory
cache, handle store decisions, and the cache effects of the filesystem
operations), translated from src/src/parser.c, src/src/cache.c,
src/src/handles.c, src/src/ftp_client.c and src/src/main.c.

Strings from the C code are modelled as `List Char` (null-free C strings).
`time_t` values are modelled as `Int`.  `mktime` (a libc call whose result
depends on the local time zone) is modelled by recording the broken-down
time (`struct tm`) that the code passes to it; every claim about an mtime
speaks of those broken-down fields.  Network transfers and local disk I/O
are modelled by their visible effects (which FTP operations are issued and
what the cache looks like afterwards).
-/

/-- File kind, mirroring `ftp_item_type_t` in include/cftpfs.h. -/
inductive FtpType where
  | unknown
  | file
  | dir
  | link
deriving DecidableEq

/-- POSIX `S_IFDIR` bit (0o40000). -/
def S_IFDIR : Nat := 16384

/-- POSIX `S_IFREG` bit (0o100000). -/
def S_IFREG : Nat := 32768

/-- POSIX `S_IFLNK` bits (0o120000). -/
def S_IFLNK : Nat := 40960

/-- MAX_PATH_LEN from cftpfs.h; `strncpy(dst, src, MAX_PATH_LEN - 1)` copies
at most 4095 characters. -/
def MAX_PATH_LEN : Nat := 4096

/-- The broken-down time (`struct tm`) handed to `mktime` when an item's
mtime is built.  `mon` is 0-based as in `struct tm` (0 = January). -/
structure Tm where
  year : Int
  mon : Int
  mday : Int
  hour : Int
  min : Int
  sec : Int
deriving DecidableEq

/-- One parsed listing item, mirroring `ftp_item_t` in include/cftpfs.h.
The `mtime` field records the broken-down time passed to `mktime`. -/
structure FtpItem where
  name : List Char
  type : FtpType
  size : Nat
  mtime : Tm
  mode : Nat
deriving DecidableEq

/-- C `isspace` for the ASCII characters the listings can contain. -/
def isSpaceC (c : Char) : Bool :=
  c = ' ' || c = '\t' || c = '\n' || c = Char.ofNat 11 || c = Char.ofNat 12 || c = '\r'

/-- C `isdigit`. -/
def isDigitC (c : Char) : Bool :=
  '0' ≤ c && c ≤ '9'

/-- C `tolower` restricted to ASCII, as used by `strcasecmp`/`strncasecmp`. -/
def lowerC (c : Char) : Char :=
  if 'A' ≤ c && c ≤ 'Z' then Char.ofNat (c.toNat + 32) else c

/-- `skip_spaces` from parser.c: advance past leading whitespace. -/
def skipSpaces : List Char → List Char
  | [] => []
  | c :: cs => if isSpaceC c then skipSpaces cs else c :: cs

/-- The `while (*p && !isspace(*p)) p++` idiom from parser.c. -/
def skipNonSpaces : List Char → List Char
  | [] => []
  | c :: cs => if isSpaceC c then c :: cs else skipNonSpaces cs

/-- The `while (*p && isdigit(*p)) acc = acc*10 + (*p - '0')` idiom from
parser.c: read a decimal number, returning it with the rest of the line. -/
def scanNat (acc : Nat) : List Char → Nat × List Char
  | [] => (acc, [])
  | c :: cs =>
    if isDigitC c then scanNat (acc * 10 + (c.toNat - 48)) cs else (acc, c :: cs)

/-- Case-insensitive equality of two character lists (`strcasecmp(a,b) == 0`,
and `strncasecmp(a,b,n) == 0` applied to `take n`). -/
def casecmpEq (a b : List Char) : Bool :=
  a.map lowerC == b.map lowerC

/-- The month table of `parse_month` in parser.c, lowered. -/
def monthNames : List (List Char) :=
  ["jan".toList, "feb".toList, "mar".toList, "apr".toList, "may".toList,
   "jun".toList, "jul".toList, "aug".toList, "sep".toList, "oct".toList,
   "nov".toList, "dec".toList]

/-- `parse_month` from parser.c: case-insensitive three-letter month lookup,
0-based index, `none` for no match (C returns -1). -/
def parse_month (s : List Char) : Option Nat :=
  monthNames.findIdx? (fun m => casecmpEq (s.take 3) m)

/-- The `" -> "` separator searched by `strstr` in parse_unix_listing. -/
def arrowSep : List Char := [' ', '-', '>', ' ']

/-- The name-truncation step of parse_unix_listing (lines 127-130): writing a
terminator at the first occurrence of `" -> "` keeps only the part before. -/
def truncAtArrow : List Char → List Char
  | [] => []
  | c :: cs => if arrowSep.isPrefixOf (c :: cs) then [] else c :: truncAtArrow cs

/-- The trailing-whitespace strip at the end of parse_windows_listing. -/
def stripTrail (l : List Char) : List Char :=
  (l.reverse.dropWhile isSpaceC).reverse

/-- `parse_unix_listing` from parser.c.  `nowYear` is the current local year
(`tm_now->tm_year + 1900`), used when the date carries a time instead of a
year.  Returns `none` where the C code returns -1. -/
def parse_unix_listing (nowYear : Int) (line : List Char) : Option FtpItem :=
  if line.length < 10 then none else
  match line with
  | [] => none
  | c :: _ =>
    let tk : Option (FtpType × Nat) :=
      if c = 'd' then some (FtpType.dir, S_IFDIR + 493)
      else if c = '-' then some (FtpType.file, S_IFREG + 420)
      else if c = 'l' then some (FtpType.link, S_IFLNK + 511)
      else none
    match tk with
    | none => none
    | some (ty, mode) =>
      let p1 := skipSpaces (skipNonSpaces (line.drop 1))
      let p2 := skipSpaces (skipNonSpaces p1)
      let p3 := skipSpaces (skipNonSpaces p2)
      let p4 := skipSpaces (skipNonSpaces p3)
      let szR := scanNat 0 p4
      let p6 := skipSpaces szR.2
      if p6.length < 3 then none else
      match parse_month (p6.take 3) with
      | none => none
      | some mon =>
        let p7 := skipSpaces (p6.drop 3)
        let dayR := scanNat 0 p7
        let p9 := skipSpaces dayR.2
        let ymd : Int × Int × Int × List Char :=
          if p9.contains ':' then
            let hR := scanNat 0 p9
            let q2 := match hR.2 with
              | ':' :: t => t
              | other => other
            let mR := scanNat 0 q2
            (nowYear, (hR.1 : Int), (mR.1 : Int), mR.2)
          else
            let yR := scanNat 0 p9
            ((yR.1 : Int), 0, 0, yR.2)
        let p11 := skipSpaces ymd.2.2.2
        if p11 = [] then none else
        some { name := (truncAtArrow p11).take (MAX_PATH_LEN - 1)
               type := ty
               size := szR.1
               mtime := { year := ymd.1, mon := (mon : Int), mday := (dayR.1 : Int)
                          hour := ymd.2.1, min := ymd.2.2.1, sec := 0 }
               mode := mode }

/-- The year adjustment in parse_windows_listing (lines 161-165). -/
def adjust_year (y : Nat) : Nat :=
  if y < 50 then y + 2000 else if y < 100 then y + 1900 else y

/-- The AM/PM hour fix-up in parse_windows_listing (lines 174-178):
`strcasecmp` comparison against "PM"/"AM". -/
def win_fix_hour (hour : Nat) (ampm : List Char) : Nat :=
  if casecmpEq ampm ['p', 'm'] && hour ≠ 12 then hour + 12
  else if casecmpEq ampm ['a', 'm'] && hour = 12 then 0
  else hour

/-- One `%2d` conversion of `sscanf`: skip whitespace, then read one or two
digits; fails when no digit follows. -/
def scan2d (l : List Char) : Option (Nat × List Char) :=
  match skipSpaces l with
  | [] => none
  | c :: cs =>
    if isDigitC c then
      match cs with
      | d :: ds =>
        if isDigitC d then some ((c.toNat - 48) * 10 + (d.toNat - 48), ds)
        else some (c.toNat - 48, d :: ds)
      | [] => some (c.toNat - 48, [])
    else none

/-- `sscanf(line, "%2d-%2d-%2d", ...) == 3` from parse_windows_listing. -/
def sscanfDate (l : List Char) : Option (Nat × Nat × Nat) :=
  match scan2d l with
  | none => none
  | some (mo, r1) =>
    match r1 with
    | '-' :: r2 =>
      match scan2d r2 with
      | none => none
      | some (dy, r3) =>
        match r3 with
        | '-' :: r4 =>
          match scan2d r4 with
          | none => none
          | some (yr, _) => some (mo, dy, yr)
        | _ => none
    | _ => none

/-- `sscanf(p, "%2d:%2d%2s", ...) >= 2` from parse_windows_listing: hour and
minute must match; the AM/PM buffer takes up to two further non-space
characters and stays empty when none follow. -/
def sscanfTime (l : List Char) : Option (Nat × Nat × List Char) :=
  match scan2d l with
  | none => none
  | some (h, r1) =>
    match r1 with
    | ':' :: r2 =>
      match scan2d r2 with
      | none => none
      | some (m, r3) =>
        let ampm := ((skipSpaces r3).takeWhile (fun c => !isSpaceC c)).take 2
        some (h, m, ampm)
    | _ => none

/-- The `<DIR>`-or-size block of parse_windows_listing (lines 186-201):
given the text after the time field, produce the kind, mode, size and the
remaining text. -/
def win_kind_size (p : List Char) : FtpType × Nat × Nat × List Char :=
  if casecmpEq (p.take 5) ['<', 'd', 'i', 'r', '>'] then
    (FtpType.dir, S_IFDIR + 493, 0, p.drop 5)
  else
    let szR := scanNat 0 p
    (FtpType.file, S_IFREG + 420, szR.1, szR.2)

/-- `parse_windows_listing` from parser.c.  When the time pattern fails to
match, the C code leaves `hour`/`min` uninitialized; the model uses 0 there
(no claim depends on that path). -/
def parse_windows_listing (line : List Char) : Option FtpItem :=
  if line.length < 20 then none else
  match sscanfDate line with
  | none => none
  | some (month, day, year2) =>
    let year := adjust_year year2
    let p := skipSpaces (line.drop 8)
    let hm : Nat × Nat :=
      match sscanfTime p with
      | some (h, m, ampm) => (win_fix_hour h ampm, m)
      | none => (0, 0)
    let p2 := skipSpaces (skipNonSpaces p)
    let kms := win_kind_size p2
    let p3 := skipSpaces kms.2.2.2
    if p3 = [] then none else
    some { name := stripTrail (p3.take (MAX_PATH_LEN - 1))
           type := kms.1
           size := kms.2.2.1
           mtime := { year := (year : Int), mon := (month : Int) - 1
                      mday := (day : Int), hour := (hm.1 : Int)
                      min := (hm.2 : Int), sec := 0 }
           mode := kms.2.1 }

/-- `parse_ftp_listing` from parser.c: strip leading whitespace, reject the
empty line, and dispatch on the first remaining byte. -/
def parse_ftp_listing (nowYear : Int) (line : List Char) : Option FtpItem :=
  match skipSpaces line with
  | [] => none
  | c :: rest =>
    if c = 'd' || c = '-' || c = 'l' then parse_unix_listing nowYear (c :: rest)
    else if isDigitC c then parse_windows_listing (c :: rest)
    else none

/-- One node of the directory cache list, mirroring `cache_entry_t`. -/
structure CacheEntry where
  path : List Char
  items : List FtpItem
  timestamp : Int
deriving DecidableEq

/-- The directory cache: the linked list hanging off `ctx->dir_cache`,
head first. -/
def Cache := List CacheEntry

/-- `strncmp(a, b, n) == 0` on null-terminated strings: comparison stops at
the n-th character, at the first difference, or at the end of both. -/
def strncmpEq : List Char → List Char → Nat → Bool
  | _, _, 0 => true
  | [], [], _ + 1 => true
  | [], _ :: _, _ + 1 => false
  | _ :: _, [], _ + 1 => false
  | a :: as, b :: bs, n + 1 => if a = b then strncmpEq as bs n else false

/-- CACHE_TIMEOUT_DEFAULT from cftpfs.h. -/
def CACHE_TIMEOUT_DEFAULT : Int := 30

/-- The effective timeout computed inside `cache_get`
(`ctx->cache_timeout > 0 ? ctx->cache_timeout : CACHE_TIMEOUT_DEFAULT`). -/
def effTimeout (ctxTimeout : Int) : Int :=
  if ctxTimeout > 0 then ctxTimeout else CACHE_TIMEOUT_DEFAULT

/-- `cache_get` from cache.c: scan for the first entry whose path equals
`path`; if found and expired (`now - timestamp > timeout`) remove it and
report absent, if found and fresh return it, otherwise report absent.
Returns the cache after the call together with the result. -/
def cache_get (ctxTimeout now : Int) (path : List Char) :
    List CacheEntry → List CacheEntry × Option CacheEntry
  | [] => ([], none)
  | e :: rest =>
    if e.path = path then
      if now - e.timestamp > effTimeout ctxTimeout then (rest, none)
      else (e :: rest, some e)
    else
      let r := cache_get ctxTimeout now path rest
      (e :: r.1, r.2)

/-- The removal pass of `cache_put` (cache.c lines 67-86): unlink the first
entry whose path equals `path`. -/
def removeFirst (path : List Char) : List CacheEntry → List CacheEntry
  | [] => []
  | e :: rest => if e.path = path then rest else e :: removeFirst path rest

/-- `cache_put` from cache.c: drop any prior entry for `path`, then insert a
fresh entry at the head, stamped `now`; `strncpy` truncates the stored key
to MAX_PATH_LEN - 1 characters. -/
def cache_put (now : Int) (path : List Char) (items : List FtpItem)
    (c : List CacheEntry) : List CacheEntry :=
  { path := path.take (MAX_PATH_LEN - 1), items := items, timestamp := now } ::
    removeFirst path c

/-- `cache_invalidate` from cache.c: drop every entry whose path equals the
argument (`strcmp == 0`) or begins with it
(`strncmp(entry->path, path, strlen(path)) == 0`). -/
def cache_invalidate (path : List Char) : List CacheEntry → List CacheEntry
  | [] => []
  | e :: rest =>
    if e.path == path || strncmpEq e.path path path.length then
      cache_invalidate path rest
    else
      e :: cache_invalidate path rest

/-- Worker for the `strtok(data, "\n")` split: `acc` holds the token under
construction, in reverse. -/
def strtok_acc : List Char → List Char → List (List Char)
  | [], acc => if acc = [] then [] else [acc.reverse]
  | c :: cs, acc =>
    if c = '\n' then
      if acc = [] then strtok_acc cs [] else acc.reverse :: strtok_acc cs []
    else strtok_acc cs (c :: acc)

/-- The token split performed by `strtok(data, "\n")` in `ftp_list_dir`:
maximal nonempty runs of non-newline characters, in order. -/
def strtok_lines (s : List Char) : List (List Char) :=
  strtok_acc s []

/-- The second pass of `ftp_list_dir` (ftp_client.c lines 202-209): walk the
tokens, keep each line the parser accepts, and stop early if the slot count
from the first pass is exhausted. -/
def listParseLoop (nowYear : Int) (count : Nat) :
    List (List Char) → Nat → List FtpItem
  | [], _ => []
  | l :: ls, idx =>
    if idx < count then
      match parse_ftp_listing nowYear l with
      | some it => it :: listParseLoop nowYear count ls (idx + 1)
      | none => listParseLoop nowYear count ls idx
    else []

/-- The parsing stage of `ftp_list_dir` (ftp_client.c lines 178-215), applied
to a LIST response body that arrived intact: count the newline-separated
tokens, then parse them, skipping rejected lines; the final count is the
number of parsed items and the return code is 0. -/
def ftp_list_dir_parse (nowYear : Int) (body : List Char) :
    Int × List FtpItem :=
  let tokens := strtok_lines body
  (0, listParseLoop nowYear tokens.length tokens 0)

/-- `O_ACCMODE` (Linux). -/
def O_ACCMODE : Nat := 3

/-- `O_RDONLY` (Linux). -/
def O_RDONLY : Nat := 0

/-- `O_CREAT` (Linux, 0o100). -/
def O_CREAT : Nat := 64

/-- `O_TRUNC` (Linux, 0o1000). -/
def O_TRUNC : Nat := 512

/-- The observable outcome of a non-read-only `cftpfs_open`: whether an
initial `ftp_download` of the remote path into the spill file was issued,
and the handle's `is_new` flag. -/
structure OpenResult where
  primed : Bool
  is_new : Bool
deriving DecidableEq

/-- The priming decision of `cftpfs_open` (main.c lines 336-342):
`if (!(fi->flags & O_CREAT) || (fi->flags & O_TRUNC))` download the remote
file into the spill, else skip the download and set `is_new`. -/
def cftpfs_open_prime (flags : Nat) : OpenResult :=
  if flags &&& O_CREAT = 0 || flags &&& O_TRUNC ≠ 0 then
    { primed := true, is_new := false }
  else
    { primed := false, is_new := true }

/-- `cftpfs_open` (main.c lines 299-349), reduced to its priming behavior:
a read-only open returns immediately with no handle (`none`); any other
open allocates a handle and primes it per `cftpfs_open_prime`.  Handle-slot
bookkeeping is not modelled. -/
def cftpfs_open_model (flags : Nat) : Option OpenResult :=
  if flags &&& O_ACCMODE = O_RDONLY then none
  else some (cftpfs_open_prime flags)

/-- `strrchr(path, '/')` as an index: the position of the last '/' in the
list, if any. -/
def lastSlashIdx : List Char → Option Nat
  | [] => none
  | x :: xs =>
    match lastSlashIdx xs with
    | some i => some (i + 1)
    | none => if x = '/' then some 0 else none

/-- The parent/basename split of `cftpfs_getattr` (main.c lines 173-188):
truncate at the last '/'; no slash at all, or an empty basename, is
rejected (-ENOENT).  For a top-level path such as "/a" the parent comes out
as the empty string. -/
def split_parent (path : List Char) : Option (List Char × List Char) :=
  match lastSlashIdx path with
  | none => none
  | some i =>
    let base := path.drop (i + 1)
    if base = [] then none else some (path.take i, base)

/-- The observable outcome of `cftpfs_release` on a registered handle:
whether the spill was uploaded to the remote path, and the cache
afterwards. -/
structure ReleaseResult where
  uploaded : Bool
  cache : List CacheEntry
deriving DecidableEq

/-- `cftpfs_release` (main.c lines 457-491) on a registered handle: when
`dirty || is_new`, upload the spill to the remote path and then, only when
the last '/' of the path is not its first character, invalidate the parent
prefix in the cache; otherwise neither upload nor invalidate. -/
def cftpfs_release_model (dirty is_new : Bool) (path : List Char)
    (cache : List CacheEntry) : ReleaseResult :=
  if dirty || is_new then
    let cache' :=
      match lastSlashIdx path with
      | some i => if i ≠ 0 then cache_invalidate (path.take i) cache else cache
      | none => cache
    { uploaded := true, cache := cache' }
  else
    { uploaded := false, cache := cache }

/-- The cache effect of `cftpfs_rename` (main.c lines 561-577): on FTP
success, invalidate with prefix "/"; on failure the cache is untouched. -/
def cftpfs_rename_cache (ok : Bool) (cache : List CacheEntry) :
    List CacheEntry :=
  if ok then cache_invalidate ['/'] cache else cache

/-- The cache effect of `cftpfs_getattr` (main.c lines 171-235) on a path
whose listing fetch succeeds: split off the parent, consult the cache, and
on a miss insert the freshly listed items under the parent key.  The
listing the FTP adapter would return is passed in as `listing`. -/
def cftpfs_getattr_cache (ctxTimeout now : Int) (path : List Char)
    (listing : List FtpItem) (cache : List CacheEntry) : List CacheEntry :=
  match split_parent path with
  | none => cache
  | some (parent, _) =>
    match cache_get ctxTimeout now parent cache with
    | (c1, some _) => c1
    | (c1, none) => cache_put now parent listing c1

/-- A list is a byte-string beginning of itself. -/
theorem isPrefixOf_self : ∀ l : List Char, l.isPrefixOf l = true
  | [] => rfl
  | c :: cs => by simp [List.isPrefixOf, isPrefixOf_self cs]

/-- `strncmp(a, b, strlen(b)) == 0` holds exactly when `b` is a byte-string
beginning of `a`. -/
theorem strncmpEq_length : ∀ (b a : List Char),
    strncmpEq a b b.length = b.isPrefixOf a := by
  intro b
  induction b with
  | nil => intro a; cases a <;> rfl
  | cons x bs ih =>
    intro a
    cases a with
    | nil => rfl
    | cons y as =>
      simp only [List.length_cons, strncmpEq, List.isPrefixOf]
      by_cases h : y = x
      · subst h
        simp [ih]
      · have hb : (x == y) = false := by
          simp only [beq_eq_false_iff_ne, ne_eq]
          exact fun hh => h hh.symm
        simp [h, hb]

/-- The scan of `cache_invalidate` keeps exactly the entries whose key the
argument does not begin. -/
theorem cache_invalidate_eq_filter (p : List Char) :
    ∀ c : List CacheEntry,
      cache_invalidate p c = c.filter (fun e => !(p.isPrefixOf e.path)) := by
  intro c
  induction c with
  | nil => rfl
  | cons e rest ih =>
    simp only [cache_invalidate, strncmpEq_length, List.filter_cons]
    by_cases hp : p.isPrefixOf e.path
    · have hc : (e.path == p || p.isPrefixOf e.path) = true := by simp [hp]
      simp [hc, hp, ih]
    · have hne : (e.path == p) = false := by
        simp only [beq_eq_false_iff_ne, ne_eq]
        intro hh
        exact hp (by rw [hh]; exact isPrefixOf_self p)
      simp [hne, hp, ih]

/-- No surviving entry of `cache_invalidate p` has key `p` itself. -/
theorem cache_invalidate_not_mem_key (p : List Char) (c : List CacheEntry) :
    ∀ e ∈ cache_invalidate p c, e.path ≠ p := by
  intro e he hh
  rw [cache_invalidate_eq_filter] at he
  have h2 := (List.mem_filter.mp he).2
  rw [hh] at h2
  simp [isPrefixOf_self] at h2

/-- A `cache_get` for a key no entry carries reports absent and leaves the
cache unchanged. -/
theorem cache_get_absent (T now : Int) (p : List Char) :
    ∀ c : List CacheEntry, (∀ e ∈ c, e.path ≠ p) →
      cache_get T now p c = (c, none) := by
  intro c
  induction c with
  | nil => intro _; rfl
  | cons e rest ih =>
    intro h
    have h1 : ¬(e.path = p) := h e (List.mem_cons_self e rest)
    simp only [cache_get, if_neg h1]
    rw [ih (fun x hx => h x (List.mem_cons_of_mem e hx))]

/-- The guarded second pass of `ftp_list_dir` never hits its slot bound and
collects exactly the lines the parser accepts, in order. -/
theorem listParseLoop_eq_filterMap (ny : Int) (count : Nat) :
    ∀ (ls : List (List Char)) (idx : Nat),
      idx + (ls.filterMap (parse_ftp_listing ny)).length ≤ count →
      listParseLoop ny count ls idx = ls.filterMap (parse_ftp_listing ny) := by
  intro ls
  induction ls with
  | nil => intro idx _; rfl
  | cons l ls ih =>
    intro idx h
    cases hp : parse_ftp_listing ny l with
    | some it =>
      rw [List.filterMap_cons_some hp] at h ⊢
      have hidx : idx < count := by
        have := List.length_cons it (ls.filterMap (parse_ftp_listing ny))
        omega
      simp only [listParseLoop, if_pos hidx, hp]
      rw [ih (idx + 1) (by simp at h ⊢; omega)]
    | none =>
      rw [List.filterMap_cons_none hp] at h ⊢
      by_cases hidx : idx < count
      · simp only [listParseLoop, if_pos hidx, hp]
        exact ih idx h
      · have hz : (ls.filterMap (parse_ftp_listing ny)).length = 0 := by omega
        rw [List.length_eq_zero] at hz
        simp only [listParseLoop, if_neg hidx, hz]

/-- C2: for every cache state and prefix, `cache_invalidate` removes exactly
the entries whose key equals the prefix or starts with it as a byte string
and keeps every other entry in place; concretely, after put("/a"),
put("/a/b"), put("/ab") (over a cache holding "/z"), invalidate("/a")
removes /a, /a/b and also /ab, leaving /z. -/
theorem claim_C2 :
    (∀ (c : List CacheEntry) (p : List Char),
      cache_invalidate p c =
        c.filter (fun e => !(e.path == p || p.isPrefixOf e.path))) ∧
    cache_invalidate ("/a".toList)
      (cache_put 0 ("/ab".toList) [] (cache_put 0 ("/a/b".toList) []
        (cache_put 0 ("/a".toList) []
          [{ path := "/z".toList, items := [], timestamp := 0 }]))) =
      [{ path := "/z".toList, items := [], timestamp := 0 }] := by
  constructor
  · intro c p
    rw [cache_invalidate_eq_filter]
    apply List.filter_congr
    intro e _
    by_cases h : e.path = p
    · have : p.isPrefixOf e.path = true := by rw [h]; exact isPrefixOf_self p
      simp [h, this]
    · simp [h]
  · decide

/-- C3: an entry stored by `cache_put` at time t is returned by `cache_get`
at any `now` with `now - t ≤ T` (cache unchanged), is removed with an
absent result when `now - t > T`, and a get for a key no entry carries
reports absent without changing the cache.  The hypotheses say the
configured timeout is positive (the configuration clamps it to [5, 300])
and the key fits a C path buffer. -/
theorem claim_C3 (c : List CacheEntry) (p : List Char) (xs : List FtpItem)
    (t T now : Int) (hT : 0 < T) (hp : p.length ≤ MAX_PATH_LEN - 1) :
    (now - t ≤ T → cache_get T now p (cache_put t p xs c) =
      (cache_put t p xs c, some { path := p, items := xs, timestamp := t })) ∧
    (T < now - t → cache_get T now p (cache_put t p xs c) =
      (removeFirst p c, none)) ∧
    ((∀ e ∈ c, e.path ≠ p) → cache_get T now p c = (c, none)) := by
  have htake : List.take (MAX_PATH_LEN - 1) p = p := List.take_of_length_le hp
  have heff : effTimeout T = T := by simp only [effTimeout, if_pos hT]
  have h1 : cache_put t p xs c =
      { path := p, items := xs, timestamp := t } :: removeFirst p c := by
    simp only [cache_put, htake]
  refine ⟨?_, ?_, ?_⟩
  · intro hle
    rw [h1]
    simp only [cache_get, heff]
    rw [if_pos trivial, if_neg (by omega : ¬ now - t > T)]
  · intro hgt
    rw [h1]
    simp only [cache_get, heff]
    rw [if_pos trivial, if_pos (by omega : now - t > T)]
  · exact cache_get_absent T now p c

/-- C7: the parse stage of `ftp_list_dir` succeeds (return code 0) on any
LIST body, and its result is exactly the items of the lines the parser
accepts, in their original order; rejected lines are silently skipped and
the final count is the number of accepted lines. -/
theorem claim_C7 (nowYear : Int) (body : List Char) :
    ftp_list_dir_parse nowYear body =
      (0, (strtok_lines body).filterMap (parse_ftp_listing nowYear)) := by
  have hb : 0 + ((strtok_lines body).filterMap (parse_ftp_listing nowYear)).length ≤
      (strtok_lines body).length := by
    have := List.length_filterMap_le (parse_ftp_listing nowYear) (strtok_lines body)
    omega
  exact congrArg (fun x => ((0 : Int), x))
    (listParseLoop_eq_filterMap nowYear (strtok_lines body).length
      (strtok_lines body) 0 hb)

/-- C9 (counterexample): a cold-cache `getattr("/a")` stores the root
listing under the empty-string key (the parent computed by truncating at
the last '/'), and a subsequent successful rename, which invalidates the
prefix "/", leaves that entry in place — the cache is not empty. -/
theorem claim_C9_counterexample :
    cftpfs_getattr_cache 30 0 ("/a".toList) [] [] =
      [{ path := [], items := [], timestamp := 0 }] ∧
    cftpfs_rename_cache true [{ path := [], items := [], timestamp := 0 }] =
      [{ path := [], items := [], timestamp := 0 }] ∧
    [({ path := [], items := [], timestamp := 0 } : CacheEntry)] ≠ [] := by
  refine ⟨by decide, by decide, by decide⟩

/-- C9 (amended): a successful rename invalidates the prefix "/", which
removes exactly the cache entries whose key begins with '/'; the cache is
completely empty afterwards whenever every key begins with '/' (true of
all readdir-inserted keys), but the empty-string key that getattr of a
top-level path inserts for the root listing survives. -/
theorem claim_C9_amended (c : List CacheEntry) :
    cftpfs_rename_cache true c =
      c.filter (fun e => !(['/'].isPrefixOf e.path)) ∧
    ((∀ e ∈ c, ['/'].isPrefixOf e.path = true) →
      cftpfs_rename_cache true c = []) := by
  have h1 : cftpfs_rename_cache true c =
      c.filter (fun e => !(['/'].isPrefixOf e.path)) := by
    simp only [cftpfs_rename_cache, if_pos rfl]
    exact cache_invalidate_eq_filter ['/'] c
  refine ⟨h1, ?_⟩
  intro h
  rw [h1]
  exact List.filter_eq_nil_iff.mpr (fun e he => by simp [h e he])

/-- C9 (witness for the amended theorem): with every key starting with '/',
a successful rename empties the cache. -/
theorem claim_C9_witness :
    cftpfs_rename_cache true
      [{ path := "/a".toList, items := [], timestamp := 0 },
       { path := "/b/c".toList, items := [], timestamp := 0 }] = [] :=
  (claim_C9_amended _).2 (by decide)

/-- C1 (counterexample): releasing a dirty handle on "/new.txt" — a remote
path whose parent is the root directory — uploads the spill but leaves the
cache untouched: the entry for the parent "/" survives and a subsequent
get of "/" still hits. -/
theorem claim_C1_counterexample :
    cftpfs_release_model true false ("/new.txt".toList)
      [{ path := "/".toList, items := [], timestamp := 0 }] =
      { uploaded := true,
        cache := [{ path := "/".toList, items := [], timestamp := 0 }] } ∧
    (cache_get 30 0 ("/".toList)
      (cftpfs_release_model true false ("/new.txt".toList)
        [{ path := "/".toList, items := [], timestamp := 0 }]).cache).2 =
      some { path := "/".toList, items := [], timestamp := 0 } := by
  refine ⟨by decide, by decide⟩

/-- C1 (amended): on release of a registered handle, the spill is uploaded
to the remote path exactly when `dirty || is_new`; when it is and the last
'/' of the path is not its first character, the parent prefix is
invalidated in the cache and a subsequent get of the parent misses, but
when the parent is the root (last '/' at position 0) the cache is left
unchanged; with neither flag set nothing is uploaded or invalidated. -/
theorem claim_C1_amended (dirty is_new : Bool) (path : List Char)
    (c : List CacheEntry) (ctxT now : Int) (i : Nat) :
    (dirty = false → is_new = false →
      cftpfs_release_model dirty is_new path c =
        { uploaded := false, cache := c }) ∧
    ((dirty || is_new) = true →
      (cftpfs_release_model dirty is_new path c).uploaded = true) ∧
    ((dirty || is_new) = true → lastSlashIdx path = some i → i ≠ 0 →
      (cftpfs_release_model dirty is_new path c).cache =
        cache_invalidate (path.take i) c ∧
      (cache_get ctxT now (path.take i)
        (cftpfs_release_model dirty is_new path c).cache).2 = none) ∧
    ((dirty || is_new) = true → lastSlashIdx path = some 0 →
      (cftpfs_release_model dirty is_new path c).cache = c) := by
  refine ⟨?_, ?_, ?_, ?_⟩
  · intro hd hn
    simp [cftpfs_release_model, hd, hn]
  · intro h
    simp [cftpfs_release_model, h]
  · intro h hls hi
    have hcache : (cftpfs_release_model dirty is_new path c).cache =
        cache_invalidate (path.take i) c := by
      simp [cftpfs_release_model, h, hls, hi]
    refine ⟨hcache, ?_⟩
    rw [hcache, cache_get_absent ctxT now (path.take i) _
      (cache_invalidate_not_mem_key (path.take i) c)]
  · intro h hls
    simp [cftpfs_release_model, h, hls]

/-- C1 (witness for the amended theorem): a dirty release on "/a/b" evicts
the parent "/a" — the path's first two characters — and a subsequent get
of that parent misses. -/
theorem claim_C1_witness :
    (cftpfs_release_model true false ("/a/b".toList)
      [{ path := "/a".toList, items := [], timestamp := 0 }]).cache =
      cache_invalidate (("/a/b".toList).take 2)
        [{ path := "/a".toList, items := [], timestamp := 0 }] ∧
    (cache_get 30 0 (("/a/b".toList).take 2)
      (cftpfs_release_model true false ("/a/b".toList)
        [{ path := "/a".toList, items := [], timestamp := 0 }]).cache).2 =
      none :=
  (claim_C1_amended true false ("/a/b".toList)
    [{ path := "/a".toList, items := [], timestamp := 0 }] 30 0 2).2.2.1
    (by decide) (by decide) (by decide)

/-- C4: for every open whose access mode is not read-only, requesting
O_CREAT without O_TRUNC skips the initial download and marks the handle
`is_new` (regardless of whether the remote file exists — the decision
depends on the flags alone); every other flag combination downloads the
remote into the spill and leaves `is_new` clear. -/
theorem claim_C4 (flags : Nat) (hw : flags &&& O_ACCMODE ≠ O_RDONLY) :
    (flags &&& O_CREAT ≠ 0 → flags &&& O_TRUNC = 0 →
      cftpfs_open_model flags = some { primed := false, is_new := true }) ∧
    ((flags &&& O_CREAT = 0 ∨ flags &&& O_TRUNC ≠ 0) →
      cftpfs_open_model flags = some { primed := true, is_new := false }) := by
  constructor
  · intro hc ht
    simp [cftpfs_open_model, hw, cftpfs_open_prime, hc, ht]
  · intro hor
    rcases hor with h | h <;> simp [cftpfs_open_model, hw, cftpfs_open_prime, h]

/-- C4 (witness): opening with O_WRONLY|O_CREAT (flags 65) skips the
download and sets `is_new`; O_WRONLY|O_CREAT|O_TRUNC (flags 577) downloads
first. -/
theorem claim_C4_witness :
    cftpfs_open_model 65 = some { primed := false, is_new := true } ∧
    cftpfs_open_model 577 = some { primed := true, is_new := false } :=
  ⟨(claim_C4 65 (by decide)).1 (by decide) (by decide),
   (claim_C4 577 (by decide)).2 (Or.inr (by decide))⟩

/-- C3 (witness): a put at time 0 with timeout 30 is returned by a get at
time 10 and is gone, with an absent result, at time 41. -/
theorem claim_C3_witness :
    cache_get 30 10 ("/d".toList) (cache_put 0 ("/d".toList) [] []) =
      (cache_put 0 ("/d".toList) [] [],
        some { path := "/d".toList, items := [], timestamp := 0 }) ∧
    cache_get 30 41 ("/d".toList) (cache_put 0 ("/d".toList) [] []) =
      (removeFirst ("/d".toList) [], none) :=
  ⟨(claim_C3 [] ("/d".toList) [] 0 30 10 (by decide) (by decide)).1 (by decide),
   (claim_C3 [] ("/d".toList) [] 0 30 41 (by decide) (by decide)).2.1 (by decide)⟩

/-- C5 (counterexample): the Unix parser keeps the size field of the
listing for directories, so the docs line of the S6 fixture parses with
size 4096, not 0. -/
theorem claim_C5_counterexample :
    (parse_ftp_listing 2025
      ("drwxr-xr-x 2 u g 4096 Jan  1 12:00 docs".toList)).map FtpItem.size =
      some 4096 ∧
    (parse_ftp_listing 2025
      ("drwxr-xr-x 2 u g 4096 Jan  1 12:00 docs".toList)).map FtpItem.size ≠
      some 0 := by
  refine ⟨by decide, by decide⟩

/-- C5 (amended): the two-line S6 fixture parses to exactly two entries:
docs as a directory of size 4096 — the size column of the listing, which
the Unix parser does not zero for directories — with the current local
year, hour 12, minute 0, and README as a file of size 42 with broken-down
time year 2023, month February (tm_mon 1), day 15, hour 0, minute 0. -/
theorem claim_C5_amended (nowYear : Int) :
    ftp_list_dir_parse nowYear
      (("drwxr-xr-x 2 u g 4096 Jan  1 12:00 docs" ++ "\n" ++
        "-rw-r--r-- 1 u g   42 Feb 15  2023 README").toList) =
      (0,
       [{ name := "docs".toList, type := FtpType.dir, size := 4096,
          mtime := { year := nowYear, mon := 0, mday := 1, hour := 12,
                     min := 0, sec := 0 },
          mode := S_IFDIR + 493 },
        { name := "README".toList, type := FtpType.file, size := 42,
          mtime := { year := 2023, mon := 1, mday := 15, hour := 0,
                     min := 0, sec := 0 },
          mode := S_IFREG + 420 }]) := rfl

/-- C6: the top-level parser dispatches on the first non-whitespace byte:
'd', '-' or 'l' goes to the Unix parser, an ASCII digit goes to the
Windows parser, anything else — including an empty or all-whitespace
line — is rejected. -/
theorem claim_C6 (nowYear : Int) (line : List Char) :
    parse_ftp_listing nowYear line =
      match skipSpaces line with
      | [] => none
      | c :: rest =>
        if c = 'd' ∨ c = '-' ∨ c = 'l' then
          parse_unix_listing nowYear (c :: rest)
        else if isDigitC c then parse_windows_listing (c :: rest)
        else none := by
  unfold parse_ftp_listing
  cases skipSpaces line with
  | nil => rfl
  | cons c rest =>
    by_cases hd : c = 'd'
    · simp [hd]
    · by_cases hh : c = '-'
      · simp [hd, hh]
      · by_cases hl : c = 'l'
        · simp [hd, hh, hl]
        · by_cases hdig : isDigitC c <;> simp [hd, hh, hl, hdig]

/-- C8: in Windows-format parsing, a two-digit year below 50 maps to
2000+y and one in [50, 100) to 1900+y; the AM/PM marker is compared
case-insensitively (via the lowered comparison `casecmpEq`), 12 with AM
becomes 0, 12 with PM stays 12, any other hour with PM gains 12; a
case-insensitive `<DIR>` token yields directory kind with size 0, and
otherwise the decimal size is read from the line. -/
theorem claim_C8 :
    (∀ y : Nat, y < 50 → adjust_year y = 2000 + y) ∧
    (∀ y : Nat, 50 ≤ y → y < 100 → adjust_year y = 1900 + y) ∧
    (∀ (h : Nat) (s : List Char), casecmpEq s ['p', 'm'] = true → h ≠ 12 →
      win_fix_hour h s = h + 12) ∧
    (∀ s : List Char, casecmpEq s ['p', 'm'] = true → win_fix_hour 12 s = 12) ∧
    (∀ s : List Char, casecmpEq s ['a', 'm'] = true → win_fix_hour 12 s = 0) ∧
    (∀ p : List Char, casecmpEq (p.take 5) ['<', 'd', 'i', 'r', '>'] = true →
      win_kind_size p = (FtpType.dir, S_IFDIR + 493, 0, p.drop 5)) ∧
    (∀ p : List Char, casecmpEq (p.take 5) ['<', 'd', 'i', 'r', '>'] = false →
      win_kind_size p =
        (FtpType.file, S_IFREG + 420, (scanNat 0 p).1, (scanNat 0 p).2)) := by
  refine ⟨?_, ?_, ?_, ?_, ?_, ?_, ?_⟩
  · intro y hy
    simp only [adjust_year, if_pos hy]
    omega
  · intro y h1 h2
    simp only [adjust_year]
    rw [if_neg (by omega), if_pos h2]
    omega
  · intro h s hcs hne
    simp [win_fix_hour, hcs, hne]
  · intro s hcs
    have hm : s.map lowerC = ['p', 'm'] := by simpa [casecmpEq] using hcs
    have ham : casecmpEq s ['a', 'm'] = false := by
      simp [casecmpEq, hm]
      decide
    simp [win_fix_hour, ham]
  · intro s hcs
    have hm : s.map lowerC = ['a', 'm'] := by simpa [casecmpEq] using hcs
    have hpm : casecmpEq s ['p', 'm'] = false := by
      simp [casecmpEq, hm]
      decide
    simp [win_fix_hour, hcs, hpm]
  · intro p hc
    simp [win_kind_size, hc]
  · intro p hc
    simp [win_kind_size, hc]

/-- C8 (witness): 24 maps to 2024 and 99 to 1999; 03 with pM becomes 15,
12 with Pm stays 12, 12 with am becomes 0; a lowercase dir token yields a
directory of size 0 and a size field is read as a decimal number. -/
theorem claim_C8_witness :
    adjust_year 24 = 2000 + 24 ∧ adjust_year 99 = 1900 + 99 ∧
    win_fix_hour 3 ("pM".toList) = 3 + 12 ∧
    win_fix_hour 12 ("Pm".toList) = 12 ∧
    win_fix_hour 12 ("am".toList) = 0 ∧
    win_kind_size ("<dir>  www".toList) =
      (FtpType.dir, S_IFDIR + 493, 0, ("<dir>  www".toList).drop 5) ∧
    win_kind_size ("4096 f.txt".toList) =
      (FtpType.file, S_IFREG + 420, (scanNat 0 ("4096 f.txt".toList)).1,
        (scanNat 0 ("4096 f.txt".toList)).2) :=
  ⟨claim_C8.1 24 (by decide),
   claim_C8.2.1 99 (by decide) (by decide),
   claim_C8.2.2.1 3 ("pM".toList) (by decide) (by decide),
   claim_C8.2.2.2.1 ("Pm".toList) (by decide),
   claim_C8.2.2.2.2.1 ("am".toList) (by decide),
   claim_C8.2.2.2.2.2.1 ("<dir>  www".toList) (by decide),
   claim_C8.2.2.2.2.2.2 ("4096 f.txt".toList) (by decide)⟩

/-- The name truncation of the Unix parser cuts at the first " -> " for a
name whose head part contains no space. -/
theorem truncAtArrow_append (post : List Char) :
    ∀ pre : List Char, ' ' ∉ pre →
      truncAtArrow (pre ++ arrowSep ++ post) = pre := by
  intro pre
  induction pre with
  | nil =>
    intro _
    show truncAtArrow (arrowSep ++ post) = []
    simp [truncAtArrow, arrowSep, List.isPrefixOf]
  | cons c cs ih =>
    intro h
    have hc : (' ' == c) = false := by
      simp only [beq_eq_false_iff_ne, ne_eq]
      intro hh
      exact h (by rw [hh]; exact List.mem_cons_self c cs)
    show truncAtArrow (c :: (cs ++ arrowSep ++ post)) = c :: cs
    have hpre : arrowSep.isPrefixOf (c :: (cs ++ arrowSep ++ post)) = false := by
      simp [arrowSep, List.isPrefixOf, hc]
    simp only [truncAtArrow, hpre, Bool.false_eq_true, if_false]
    rw [ih (fun hm => h (List.mem_cons_of_mem c hm))]

/-- C10: the " -> " truncation of the Unix parser applies to every entry
kind, not only symlinks: generally, a name of the shape
pre ++ " -> " ++ post (space-free pre) is cut to pre, and concretely a
regular file line, a directory line and a symlink line whose name field is
"a -> b" all parse with name "a". -/
theorem claim_C10 (pre post : List Char) (hs : ' ' ∉ pre) :
    truncAtArrow (pre ++ arrowSep ++ post) = pre ∧
    (parse_ftp_listing 2024
      ("-rw-r--r-- 1 u g 5 Jan 1 2023 a -> b".toList)).map
      (fun i => (i.name, i.type)) = some ("a".toList, FtpType.file) ∧
    (parse_ftp_listing 2024
      ("drwxr-xr-x 2 u g 6 Jan 1 2023 a -> b".toList)).map
      (fun i => (i.name, i.type)) = some ("a".toList, FtpType.dir) ∧
    (parse_ftp_listing 2024
      ("lrwxrwxrwx 1 u g 7 Jan 1 2023 a -> b".toList)).map
      (fun i => (i.name, i.type)) = some ("a".toList, FtpType.link) :=
  ⟨truncAtArrow_append post pre hs, by decide, by decide, by decide⟩

/-- C10 (witness): "a -> b" is cut to "a". -/
theorem claim_C10_witness :
    truncAtArrow ("a".toList ++ arrowSep ++ "b".toList) = "a".toList :=
  (claim_C10 ("a".toList) ("b".toList) (by decide)).1
